import Mathlib

/-!
# Verification of the MAML-TRPO meta-learner (maml_rl/metalearner.py)

This file is a shallow embedding of `ModelAgnosticMetaLearning` from
`maml_rl/metalearner.py` together with proofs about its behaviour.

Modelling conventions:

* Python float scalars and tensors are modelled over `ℝ`; a tensor of shape
  `[T, B]` is a function `Fin T → Fin B → ℝ`.  The one place where IEEE
  non-finite values (NaN / ±inf) are essential — the unguarded division
  `step = stepdir / lagrange_multiplier` — is modelled separately with the
  type `NF := Option ℝ`, where `none` stands for a non-finite float.
* The policy's structured parameters are modelled directly as the flat
  vector `Vec n := Fin n → ℝ`; the spec's §6 requires the
  `parameters_to_vector` / `vector_to_parameters` pair to be an exact,
  order-preserving round trip, so this identification is lossless.
* The external sampler's per-task episode futures are modelled as
  `Except E (Episodes ...)`: `Except.error` is a failed future; awaiting it
  raises.  `asyncio.gather` (without `return_exceptions`) together with
  `run_until_complete` propagates the first failure, which is modelled by
  sequentially binding the list of futures.
* The external torch `Categorical`-style action distribution produced by
  the policy for one (timestep, batch) cell is `Cat m`; `log_prob` and the
  pointwise `kl_divergence` are the usual formulas over its probabilities.
  `detach_distribution` (maml_rl.utils.torch_utils, not under src/) only
  severs gradient tracking, so at the value level it is the identity.
* The automatic-differentiation engine is external (spec §1).  Its results
  enter the model as oracle arguments: `grads` (the result of
  `torch.autograd.grad(old_loss, ...)`) and the matrix `H` (the KL Hessian
  that the double-backward pass in `hessian_vector_product` applies to a
  vector).  `conjugate_gradient` (maml_rl.utils.optimization, not under
  src/) is likewise an opaque matrix-free solver argument.
-/

set_option autoImplicit false

namespace MamlRl

/-- Flat policy parameter vector of dimension `n` (spec §3 Parameter Vector). -/
abbrev Vec (n : ℕ) : Type := Fin n → ℝ

/-- Episode batch for one task (spec §3): per-timestep observations, actions,
advantages and a validity mask, with tensor shape `[T, B]` and a finite
action space `Fin m`.  Produced by the external sampler, consumed read-only. -/
structure Episodes (T B m : ℕ) (Obs : Type) where
  observations : Fin T → Fin B → Obs
  actions : Fin T → Fin B → Fin m
  advantages : Fin T → Fin B → ℝ
  mask : Fin T → Fin B → ℝ

/-- Categorical action distribution over `m` actions for one (t, b) cell,
modelling the external torch distribution object by its probability table. -/
structure Cat (m : ℕ) where
  probs : Fin m → ℝ

/-- Distribution tensor: one action distribution per (timestep, batch) cell,
the shape of `self.policy(valid_episodes.observations, params=params)`. -/
abbrev DistT (T B m : ℕ) : Type := Fin T → Fin B → Cat m

/-- Log-probability of one action, modelling `pi.log_prob(actions)` pointwise. -/
noncomputable def logProbCat {m : ℕ} (d : Cat m) (a : Fin m) : ℝ :=
  Real.log (d.probs a)

/-- Pointwise KL divergence between two categorical cells, modelling the
external `torch.distributions.kl.kl_divergence(pi, old_pi)` pointwise. -/
noncomputable def klCat {m : ℕ} (p q : Cat m) : ℝ :=
  ∑ a, p.probs a * Real.log (p.probs a / q.probs a)

/-- Modelled from the spec: `detach_distribution` from
`maml_rl.utils.torch_utils` (repository code absent from src/).  It produces
a non-differentiable copy of the distribution; detaching only severs
gradient tracking, so on values it is the identity. -/
def detachDist {T B m : ℕ} (pi : DistT T B m) : DistT T B m := pi

/-- Modelled from the spec: `weighted_mean` from `maml_rl.utils.torch_utils`
(repository code absent from src/).  Per spec §4.2 it is a mean weighted by
the validity mask, reduced to the scalar that `step()` consumes
(`sum(losses) / num_tasks`, `improve.item()`). -/
noncomputable def weightedMean {T B : ℕ} (x w : Fin T → Fin B → ℝ) : ℝ :=
  (∑ t, ∑ b, w t b * x t b) / (∑ t, ∑ b, w t b)

/-- Policy evaluation on the validation observations:
`pi = self.policy(valid_episodes.observations, params=params)`.
The external policy is a pure function `fw` of the parameter vector and a
single observation (spec §6 Policy). -/
def piT {n T B m : ℕ} {Obs : Type} (fw : Vec n → Obs → Cat m) (p : Vec n)
    (ve : Episodes T B m Obs) : DistT T B m :=
  fun t b => fw p (ve.observations t b)

/-- Per-timestep importance ratio
`ratio = exp(pi.log_prob(a) - old_pi.log_prob(a))` (metalearner.py lines
98-102; the `log_ratio.dim() > 2` branch sums a trailing per-action-dim
axis, which does not arise for the `[T, B]`-shaped finite-action model). -/
noncomputable def ratioAt {T B m : ℕ} {Obs : Type} (pi oldPi : DistT T B m)
    (ve : Episodes T B m Obs) (t : Fin T) (b : Fin B) : ℝ :=
  Real.exp (logProbCat (pi t b) (ve.actions t b)
    - logProbCat (oldPi t b) (ve.actions t b))

/-- Surrogate loss term (metalearner.py line 104):
`loss = -weighted_mean(ratio * valid_episodes.advantages, dim=0, weights=valid_episodes.mask)`. -/
noncomputable def lossOf {T B m : ℕ} {Obs : Type} (pi oldPi : DistT T B m)
    (ve : Episodes T B m Obs) : ℝ :=
  -(weightedMean (fun t b => ratioAt pi oldPi ve t b * ve.advantages t b) ve.mask)

/-- Surrogate KL term (metalearner.py line 111):
`kl = weighted_mean(kl_divergence(pi, old_pi), dim=0, weights=mask)`
(the `actions.dim() > 2` mask unsqueeze does not arise at rank 2). -/
noncomputable def klOf {T B m : ℕ} {Obs : Type} (pi oldPi : DistT T B m)
    (ve : Episodes T B m Obs) : ℝ :=
  weightedMean (fun t b => klCat (pi t b) (oldPi t b)) ve.mask

/-- Mask-weighted mean of the advantages, negated: the value the surrogate
loss takes whenever the current and reference distributions coincide. -/
noncomputable def advLoss {T B m : ℕ} {Obs : Type} (ve : Episodes T B m Obs) : ℝ :=
  -(weightedMean (fun t b => ve.advantages t b) ve.mask)

/-! ## Inner Adapter (metalearner.py `adapt`, lines 40-48)

`reinforce_loss` (maml_rl.utils.reinforcement_learning) and
`policy.update_params` (maml_rl.policies) are repository code absent from
src/.  Modelled from the spec (§4.1, §6): one update step produces
`params - fast_lr * gradient(loss, params)`, where the gradient of the
REINFORCE loss at a given parameter point is the oracle `rlGrad`.
`None` parameters mean "use the stored (current global) parameters". -/

/-- Resolution of the Python `params=None` convention: `None` denotes the
policy's stored parameter vector. -/
def resolveParams {n : ℕ} (cur : Vec n) : Option (Vec n) → Vec n
  | none => cur
  | some p => p

/-- Modelled from the spec: `policy.update_params(inner_loss, params, step_size, first_order)`
returns `params - fast_lr * gradient(reinforce_loss, params)` (spec §4.1);
`rlGrad q ep` is the REINFORCE-loss gradient at parameters `q` on `ep`. -/
def updateParams {n T B m : ℕ} {Obs : Type}
    (rlGrad : Vec n → Episodes T B m Obs → Vec n) (fastLr : ℝ) (cur : Vec n)
    (ep : Episodes T B m Obs) (p : Option (Vec n)) : Vec n :=
  fun i => resolveParams cur p i - fastLr * rlGrad (resolveParams cur p) ep i

/-- The inner adaptation loop `adapt` (metalearner.py lines 40-48):
`params = None`, then `num_steps` sequential policy-gradient steps. -/
def adaptParams {n T B m : ℕ} {Obs : Type}
    (rlGrad : Vec n → Episodes T B m Obs → Vec n) (fastLr : ℝ) (cur : Vec n)
    (ep : Episodes T B m Obs) : ℕ → Option (Vec n)
  | 0 => none
  | k + 1 => some (updateParams rlGrad fastLr cur ep (adaptParams rlGrad fastLr cur ep k))

/-- One inner policy-gradient step as a function on concrete parameter
vectors: `q ↦ q - fast_lr * gradient(reinforce_loss, q)`. -/
def innerUpdate {n T B m : ℕ} {Obs : Type}
    (rlGrad : Vec n → Episodes T B m Obs → Vec n) (fastLr : ℝ)
    (ep : Episodes T B m Obs) (q : Vec n) : Vec n :=
  fun i => q i - fastLr * rlGrad q ep i

/-! ## Surrogate Loss Evaluator (metalearner.py `surrogate_loss`, lines 82-114) -/

/-- Output of one `surrogate_loss` call: the 4-tuple
`(loss, kl, params, old_pi)`.  `old_pi` is an `Option` because the Python
local is either the passed distribution or freshly created from `None`. -/
structure SurrogateOut (n T B m : ℕ) where
  loss : ℝ
  kl : ℝ
  params : Vec n
  oldPi : Option (DistT T B m)

/-- Body of `surrogate_loss` after the parameter resolution: await the
validation future, evaluate the policy, default `old_pi` to the detached
current distribution, and return `(loss, kl, params, old_pi)`
(metalearner.py lines 89-114; `torch.set_grad_enabled` only toggles
gradient tracking and has no value-level effect). -/
noncomputable def surrogateCore {n T B m : ℕ} {Obs E : Type}
    (fw : Vec n → Obs → Cat m) (p : Vec n)
    (validFut : Except E (Episodes T B m Obs))
    (oldPi : Option (DistT T B m)) : Except E (SurrogateOut n T B m) :=
  match validFut with
  | Except.error e => Except.error e
  | Except.ok ve =>
    Except.ok ⟨lossOf (piT fw p ve) (oldPi.getD (detachDist (piT fw p ve))) ve,
               klOf (piT fw p ve) (oldPi.getD (detachDist (piT fw p ve))) ve,
               p,
               some (oldPi.getD (detachDist (piT fw p ve)))⟩

/-- The async `surrogate_loss(train_futures, valid_futures, params, old_pi)`
(metalearner.py lines 82-114).  When `params is None` the train future is
awaited and the Inner Adapter runs at the current global parameters `cur`;
otherwise the train future is never awaited. -/
noncomputable def surrogateLoss {n T B m : ℕ} {Obs E : Type}
    (fw : Vec n → Obs → Cat m)
    (rlGrad : Vec n → Episodes T B m Obs → Vec n) (fastLr : ℝ) (numSteps : ℕ)
    (cur : Vec n)
    (trainFut validFut : Except E (Episodes T B m Obs))
    (params : Option (Vec n)) (oldPi : Option (DistT T B m)) :
    Except E (SurrogateOut n T B m) :=
  match params, trainFut with
  | some p, _ => surrogateCore fw p validFut oldPi
  | none, Except.error e => Except.error e
  | none, Except.ok te =>
    surrogateCore fw (resolveParams cur (adaptParams rlGrad fastLr cur te numSteps))
      validFut oldPi

/-- Parameter vector actually used by `surrogate_loss`: the passed one, or
the Inner Adapter's result from the awaited train episodes. -/
def chosenParams {n T B m : ℕ} {Obs : Type}
    (rlGrad : Vec n → Episodes T B m Obs → Vec n) (fastLr : ℝ) (numSteps : ℕ)
    (cur : Vec n) (te : Episodes T B m Obs) (params : Option (Vec n)) : Vec n :=
  params.getD (resolveParams cur (adaptParams rlGrad fastLr cur te numSteps))

/-! ## Hessian-Vector-Product Oracle (metalearner.py lines 66-80)

`hessian_vector_product(kl, damping)` computes the KL gradient with a
retained graph and returns a closure computing, for a vector `v`, the
second backward pass of `dot(flat_grad_kl, v)` plus `damping * v`.
Differentiating the scalar `dot(∇kl(θ), v)` in `θ` yields the KL Hessian
applied to `v`; the external AD engine's result is the oracle matrix `H`. -/

/-- Dot product of two flat parameter vectors (`torch.dot`). -/
noncomputable def dotv {n : ℕ} (x y : Vec n) : ℝ := ∑ i, x i * y i

/-- Closure returned by `hessian_vector_product`: for a vector `v` it
returns `flat_grad2_kl + damping * vector`, i.e. `H v + damping • v`. -/
noncomputable def hvpFun {n : ℕ} (H : Matrix (Fin n) (Fin n) ℝ) (damping : ℝ)
    (v : Vec n) : Vec n :=
  fun i => H.mulVec v i + damping * v i

/-! ## Natural Gradient Step Solver (metalearner.py lines 144-153)

The Lagrange-multiplier scaling divides by `sqrt(shs / max_kl)` with no
guard.  To exhibit what IEEE arithmetic does there, this fragment is also
modelled over `NF := Option ℝ`, where `none` stands for a non-finite float
(NaN or ±inf): `sqrt` of a negative argument and division by zero produce
non-finite values, and non-finite operands propagate. -/

/-- Non-finite-tracking float: `some x` is the finite value `x`, `none` is
a non-finite IEEE value (NaN or ±inf). -/
def NF : Type := Option ℝ

/-- Division with IEEE non-finiteness: dividing a finite value by zero
yields ±inf or NaN, modelled as `none`; non-finite operands propagate. -/
noncomputable def nfDiv : NF → NF → NF
  | some x, some y => if y = 0 then none else some (x / y)
  | _, _ => none

/-- Square root with IEEE non-finiteness: a negative argument yields NaN. -/
noncomputable def nfSqrt : NF → NF
  | some x => if x < 0 then none else some (Real.sqrt x)
  | none => none

/-- The scalar `shs = 0.5 * torch.dot(stepdir, hessian_vector_product(stepdir))`
(metalearner.py line 150). -/
noncomputable def shsOf {n : ℕ} (H : Matrix (Fin n) (Fin n) ℝ) (damping : ℝ)
    (stepdir : Vec n) : ℝ :=
  (1 / 2) * dotv stepdir (hvpFun H damping stepdir)

/-- The Lagrange multiplier `lagrange_multiplier = torch.sqrt(shs / max_kl)`
(metalearner.py line 151), in non-finite-tracking arithmetic. -/
noncomputable def lagrangeOf (maxKl shs : ℝ) : NF :=
  nfSqrt (nfDiv (some shs) (some maxKl))

/-- One component of `step = stepdir / lagrange_multiplier`
(metalearner.py line 153), in non-finite-tracking arithmetic.  The code
performs this division with no guard on the multiplier. -/
noncomputable def trpoStepEntry {n : ℕ} (maxKl shs : ℝ) (stepdir : Vec n)
    (i : Fin n) : NF :=
  nfDiv (some (stepdir i)) (lagrangeOf maxKl shs)

/-! ## Task Orchestrator and Line Search (metalearner.py `step`, lines 116-182)

The whole outer iteration is modelled as a pure function from the initial
global parameter vector and the per-task episode futures to a
`StepOutcome` recording the final parameters, every write that
`vector_to_parameters` performs on the global parameters (in order), and
whether the line search accepted.  Oracle arguments: `grads` (the autograd
gradient of `old_loss`), `H` (the KL Hessian used by the double backward),
and `cg` (the external matrix-free `conjugate_gradient` solver, repository
code absent from src/, modelled from spec §6 as an opaque function). -/

/-- Hyper-parameters of `step()` (its keyword arguments).  `lsShrink` is
`ls_backtrack_ratio`. -/
structure StepConfig where
  maxKl : ℝ
  cgIters : ℕ
  cgDamping : ℝ
  lsMaxSteps : ℕ
  lsShrink : ℝ

/-- Observable outcome of one `step()` call: whether it returned normally
or raised, the global parameter vector afterwards, the ordered list of all
writes to the global parameters (`vector_to_parameters` calls), whether a
line-search probe was accepted (the loop broke), and how many probes ran. -/
structure StepOutcome (E : Type) (n : ℕ) where
  result : Except E Unit
  finalParams : Vec n
  writes : List (Vec n)
  accepted : Bool
  probes : ℕ

/-- Initial concurrent pass (metalearner.py lines 127-133):
`asyncio.gather` of `surrogate_loss(train, valid, params=None, old_pi=None)`
over all tasks; the first failed future faults the whole gather. -/
noncomputable def gatherInitial {n T B m : ℕ} {Obs E : Type}
    (fw : Vec n → Obs → Cat m)
    (rlGrad : Vec n → Episodes T B m Obs → Vec n) (fastLr : ℝ) (numSteps : ℕ)
    (cur : Vec n) :
    List (Except E (Episodes T B m Obs) × Except E (Episodes T B m Obs)) →
      Except E (List (SurrogateOut n T B m))
  | [] => Except.ok []
  | (tf, vf) :: rest =>
    match surrogateLoss fw rlGrad fastLr numSteps cur tf vf none none,
        gatherInitial fw rlGrad fastLr numSteps cur rest with
    | Except.error e, _ => Except.error e
    | Except.ok _, Except.error e => Except.error e
    | Except.ok r, Except.ok rs => Except.ok (r :: rs)

/-- Line-search re-evaluation gather (metalearner.py lines 164-172):
`surrogate_loss(train, valid, params=params, old_pi=old_pi)` per task,
reusing the initial pass's `params` and `old_pi`, projected to the
`(loss, kl)` pairs that the accept test consumes. -/
noncomputable def gatherProbe {n T B m : ℕ} {Obs E : Type}
    (fw : Vec n → Obs → Cat m)
    (rlGrad : Vec n → Episodes T B m Obs → Vec n) (fastLr : ℝ) (numSteps : ℕ)
    (cur : Vec n) :
    List (Except E (Episodes T B m Obs) × Except E (Episodes T B m Obs)) →
      List (SurrogateOut n T B m) → Except E (List (ℝ × ℝ))
  | [], _ => Except.ok []
  | _ :: _, [] => Except.ok []
  | (tf, vf) :: ts, r :: rs =>
    match surrogateLoss fw rlGrad fastLr numSteps cur tf vf (some r.params) r.oldPi,
        gatherProbe fw rlGrad fastLr numSteps cur ts rs with
    | Except.error e, _ => Except.error e
    | Except.ok _, Except.error e => Except.error e
    | Except.ok p, Except.ok ps => Except.ok ((p.loss, p.kl) :: ps)

/-- Tentative parameter write of one probe:
`vector_to_parameters(old_params - step_size * step, ...)` (line 160). -/
def tentative {n : ℕ} (oldParams stepVec : Vec n) (stepSize : ℝ) : Vec n :=
  fun i => oldParams i - stepSize * stepVec i

/-- The backtracking line search (metalearner.py lines 158-179) as fuelled
recursion over the remaining `range(ls_max_steps)` iterations, threading
the current `step_size`, the accumulated parameter writes, and the number
of probes already run.  The probe gather's arguments do not depend on the
tentatively written parameters, so its (identical) result is passed in
once as `probeRes`.  When the fuel runs out the Python `for`-`else` branch
restores `old_params` exactly. -/
noncomputable def lineSearchAux {n : ℕ} {E : Type}
    (probeRes : Except E (List (ℝ × ℝ))) (numTasks : ℝ)
    (oldLoss maxKl lsShrink : ℝ) (oldParams stepVec : Vec n) :
    ℕ → ℝ → List (Vec n) → ℕ → StepOutcome E n
  | 0, _, acc, done => ⟨Except.ok (), oldParams, acc ++ [oldParams], false, done⟩
  | fuel + 1, stepSize, acc, done =>
    match probeRes with
    | Except.error e =>
      ⟨Except.error e, tentative oldParams stepVec stepSize,
        acc ++ [tentative oldParams stepVec stepSize], false, done⟩
    | Except.ok lks =>
      if (lks.map Prod.fst).sum / numTasks - oldLoss < 0
          ∧ (lks.map Prod.snd).sum / numTasks < maxKl then
        ⟨Except.ok (), tentative oldParams stepVec stepSize,
          acc ++ [tentative oldParams stepVec stepSize], true, done + 1⟩
      else
        lineSearchAux probeRes numTasks oldLoss maxKl lsShrink oldParams stepVec
          fuel (stepSize * lsShrink)
          (acc ++ [tentative oldParams stepVec stepSize]) (done + 1)

/-- Search direction from the external conjugate-gradient solver
(metalearner.py lines 144-147). -/
noncomputable def stepDirOf {n : ℕ} (grads : Vec n)
    (H : Matrix (Fin n) (Fin n) ℝ)
    (cg : (Vec n → Vec n) → Vec n → ℕ → Vec n) (cfg : StepConfig) : Vec n :=
  cg (hvpFun H cfg.cgDamping) grads cfg.cgIters

/-- The step vector `step = stepdir / lagrange_multiplier` (lines 150-153)
in the idealized real-number model (Lean's division-by-zero convention
applies here; the IEEE non-finite behaviour of the same lines is captured
by `trpoStepEntry`). -/
noncomputable def stepVecOf {n : ℕ} (grads : Vec n)
    (H : Matrix (Fin n) (Fin n) ℝ)
    (cg : (Vec n → Vec n) → Vec n → ℕ → Vec n) (cfg : StepConfig) : Vec n :=
  fun i => stepDirOf grads H cg cfg i
    / Real.sqrt (shsOf H cfg.cgDamping (stepDirOf grads H cg cfg) / cfg.maxKl)

/-- One outer iteration `step()` (metalearner.py lines 116-182): initial
concurrent surrogate pass with a full barrier, aggregation by arithmetic
mean, natural-gradient step computation, then the backtracking line search
with its accept / revert decision.  A failed initial gather faults the
whole call before any parameter write. -/
noncomputable def stepModel {n T B m : ℕ} {Obs E : Type}
    (fw : Vec n → Obs → Cat m)
    (rlGrad : Vec n → Episodes T B m Obs → Vec n) (fastLr : ℝ) (numSteps : ℕ)
    (grads : Vec n) (H : Matrix (Fin n) (Fin n) ℝ)
    (cg : (Vec n → Vec n) → Vec n → ℕ → Vec n) (cfg : StepConfig)
    (θ : Vec n)
    (tasks : List (Except E (Episodes T B m Obs) × Except E (Episodes T B m Obs))) :
    StepOutcome E n :=
  match gatherInitial fw rlGrad fastLr numSteps θ tasks with
  | Except.error e => ⟨Except.error e, θ, [], false, 0⟩
  | Except.ok rs =>
    lineSearchAux (gatherProbe fw rlGrad fastLr numSteps θ tasks rs)
      (tasks.length : ℝ)
      ((rs.map SurrogateOut.loss).sum / (tasks.length : ℝ))
      cfg.maxKl cfg.lsShrink θ (stepVecOf grads H cg cfg)
      cfg.lsMaxSteps 1 [] 0

/-- Tentative parameter writes of the first `fuel` probes, starting from
step size `stepSize` and shrinking by `lsShrink` after each rejection. -/
noncomputable def probeTents {n : ℕ} (oldParams stepVec : Vec n) (lsShrink : ℝ) :
    ℕ → ℝ → List (Vec n)
  | 0, _ => []
  | f + 1, s =>
    tentative oldParams stepVec s :: probeTents oldParams stepVec lsShrink f (s * lsShrink)

/-- Hypothesis of the FutureFailure scenario (spec §7c): some task's train
or validation episode future has failed. -/
def someFutureFails {T B m : ℕ} {Obs E : Type}
    (tasks : List (Except E (Episodes T B m Obs) × Except E (Episodes T B m Obs))) :
    Prop :=
  ∃ p ∈ tasks, (∃ e, p.1 = Except.error e) ∨ (∃ e, p.2 = Except.error e)

/-- Hypothesis of the line-search-exhaustion scenario (spec §4.5): the
line-search probe evaluation (which is the same at every probe, since its
arguments do not depend on the tentatively written parameters) never
achieves both strictly negative mean improvement and mean KL strictly
below `max_kl`. -/
def noProbeAccepts {n T B m : ℕ} {Obs E : Type}
    (fw : Vec n → Obs → Cat m)
    (rlGrad : Vec n → Episodes T B m Obs → Vec n) (fastLr : ℝ) (numSteps : ℕ)
    (cfg : StepConfig) (θ : Vec n)
    (tasks : List (Except E (Episodes T B m Obs) × Except E (Episodes T B m Obs))) :
    Prop :=
  ∀ rs lks,
    gatherInitial fw rlGrad fastLr numSteps θ tasks = Except.ok rs →
    gatherProbe fw rlGrad fastLr numSteps θ tasks rs = Except.ok lks →
    ¬((lks.map Prod.fst).sum / (tasks.length : ℝ)
        - (rs.map SurrogateOut.loss).sum / (tasks.length : ℝ) < 0
      ∧ (lks.map Prod.snd).sum / (tasks.length : ℝ) < cfg.maxKl)

/-! ## Concrete fixtures for the closed-instance theorems

A minimal deterministic instance: parameter dimension 1, a single
timestep, batch size 1, one action, unit observations, and `Unit` as the
error type of the external futures. -/

/-- Concrete one-cell episode batch: advantage 1, mask 1. -/
def epC : Episodes 1 1 1 Unit :=
  ⟨fun _ _ => (), fun _ _ => 0, fun _ _ => 1, fun _ _ => 1⟩

/-- Concrete policy: every parameter vector yields the point distribution. -/
def fwC : Vec 1 → Unit → Cat 1 := fun _ _ => ⟨fun _ => 1⟩

/-- Concrete REINFORCE-gradient oracle: identically zero. -/
def rlGC : Vec 1 → Episodes 1 1 1 Unit → Vec 1 := fun _ _ _ => 0

/-- Concrete conjugate-gradient oracle: returns its right-hand side. -/
def cgC : (Vec 1 → Vec 1) → Vec 1 → ℕ → Vec 1 := fun _ b _ => b

/-- Concrete aggregated-gradient oracle value. -/
def gradsC : Vec 1 := fun _ => 0

/-- Concrete KL-Hessian oracle value. -/
def HC : Matrix (Fin 1) (Fin 1) ℝ := 1

/-- Concrete hyper-parameters with `ls_max_steps = 2`. -/
noncomputable def cfgC : StepConfig := ⟨1 / 1000, 10, 1 / 100, 2, 1 / 2⟩

/-- Concrete initial global parameter vector. -/
def thC : Vec 1 := fun _ => 0

/-- Concrete single-task future list (both futures resolved). -/
def tasksC : List (Except Unit (Episodes 1 1 1 Unit) × Except Unit (Episodes 1 1 1 Unit)) :=
  [(Except.ok epC, Except.ok epC)]

/-- Concrete three-task future list in which task 2's train future failed. -/
def tasksF : List (Except Unit (Episodes 1 1 1 Unit) × Except Unit (Episodes 1 1 1 Unit)) :=
  [(Except.ok epC, Except.ok epC), (Except.error (), Except.ok epC),
   (Except.ok epC, Except.ok epC)]

/-- Outcome of the concrete single-task `step()` run. -/
noncomputable def stepC : StepOutcome Unit 1 :=
  stepModel fwC rlGC (1 / 2) 1 gradsC HC cgC cfgC thC tasksC

/-! ## Helper lemmas -/

lemma klCat_self {m : ℕ} (d : Cat m) : klCat d d = 0 := by
  unfold klCat
  apply Finset.sum_eq_zero
  intro a _
  rcases eq_or_ne (d.probs a) 0 with h | h
  · simp [h]
  · simp [div_self h]

lemma weightedMean_zero {T B : ℕ} (w : Fin T → Fin B → ℝ) :
    weightedMean (fun _ _ => (0 : ℝ)) w = 0 := by
  simp [weightedMean]

lemma ratioAt_self {T B m : ℕ} {Obs : Type} (pi : DistT T B m)
    (ve : Episodes T B m Obs) (t : Fin T) (b : Fin B) :
    ratioAt pi pi ve t b = 1 := by
  simp [ratioAt]

lemma lossOf_self {T B m : ℕ} {Obs : Type} (pi : DistT T B m)
    (ve : Episodes T B m Obs) : lossOf pi pi ve = advLoss ve := by
  unfold lossOf advLoss
  have h : (fun t b => ratioAt pi pi ve t b * ve.advantages t b)
      = fun t b => ve.advantages t b := by
    funext t b
    rw [ratioAt_self, one_mul]
  rw [h]

lemma klOf_self {T B m : ℕ} {Obs : Type} (pi : DistT T B m)
    (ve : Episodes T B m Obs) : klOf pi pi ve = 0 := by
  unfold klOf
  have h : (fun t b => klCat (pi t b) (pi t b)) = fun _ _ => (0 : ℝ) := by
    funext t b
    exact klCat_self _
  rw [h]
  exact weightedMean_zero _

lemma surrogateLoss_some_some {n T B m : ℕ} {Obs E : Type}
    (fw : Vec n → Obs → Cat m)
    (rlGrad : Vec n → Episodes T B m Obs → Vec n) (fastLr : ℝ) (numSteps : ℕ)
    (cur : Vec n) (tf : Except E (Episodes T B m Obs)) (ve : Episodes T B m Obs)
    (p : Vec n) (d : DistT T B m) :
    surrogateLoss fw rlGrad fastLr numSteps cur tf (Except.ok ve) (some p) (some d)
      = Except.ok ⟨lossOf (piT fw p ve) d ve, klOf (piT fw p ve) d ve, p, some d⟩ :=
  rfl

lemma surrogateLoss_oldPi_none {n T B m : ℕ} {Obs E : Type}
    (fw : Vec n → Obs → Cat m)
    (rlGrad : Vec n → Episodes T B m Obs → Vec n) (fastLr : ℝ) (numSteps : ℕ)
    (cur : Vec n) (te ve : Episodes T B m Obs) (params : Option (Vec n)) :
    surrogateLoss (E := E) fw rlGrad fastLr numSteps cur
        (Except.ok te) (Except.ok ve) params none
      = Except.ok ⟨advLoss ve, 0,
          chosenParams rlGrad fastLr numSteps cur te params,
          some (piT fw (chosenParams rlGrad fastLr numSteps cur te params) ve)⟩ := by
  cases params with
  | some p =>
    simp only [surrogateLoss, surrogateCore, chosenParams, Option.getD_some,
      Option.getD_none, detachDist]
    rw [lossOf_self, klOf_self]
  | none =>
    simp only [surrogateLoss, surrogateCore, chosenParams, Option.getD_some,
      Option.getD_none, detachDist]
    rw [lossOf_self, klOf_self]

lemma surrogateLoss_none_none_ok {n T B m : ℕ} {Obs E : Type}
    {fw : Vec n → Obs → Cat m}
    {rlGrad : Vec n → Episodes T B m Obs → Vec n} {fastLr : ℝ} {numSteps : ℕ}
    {cur : Vec n} {tf vf : Except E (Episodes T B m Obs)}
    {r : SurrogateOut n T B m}
    (h : surrogateLoss fw rlGrad fastLr numSteps cur tf vf none none
      = Except.ok r) :
    ∃ te ve, tf = Except.ok te ∧ vf = Except.ok ve ∧
      r = ⟨advLoss ve, 0, chosenParams rlGrad fastLr numSteps cur te none,
           some (piT fw (chosenParams rlGrad fastLr numSteps cur te none) ve)⟩ := by
  cases tf with
  | error e => exact absurd h (by simp [surrogateLoss])
  | ok te =>
    cases vf with
    | error e => exact absurd h (by simp [surrogateLoss, surrogateCore])
    | ok ve =>
      refine ⟨te, ve, rfl, rfl, ?_⟩
      rw [surrogateLoss_oldPi_none] at h
      injection h with h
      exact h.symm

lemma gatherProbe_of_initial {n T B m : ℕ} {Obs E : Type}
    (fw : Vec n → Obs → Cat m)
    (rlGrad : Vec n → Episodes T B m Obs → Vec n) (fastLr : ℝ) (numSteps : ℕ)
    (cur : Vec n) :
    ∀ (tasks : List (Except E (Episodes T B m Obs) × Except E (Episodes T B m Obs)))
      (rs : List (SurrogateOut n T B m)),
      gatherInitial fw rlGrad fastLr numSteps cur tasks = Except.ok rs →
      gatherProbe fw rlGrad fastLr numSteps cur tasks rs
        = Except.ok (rs.map (fun r => (r.loss, (0 : ℝ)))) := by
  intro tasks
  induction tasks with
  | nil =>
    intro rs h
    simp only [gatherInitial] at h
    injection h with h
    subst h
    simp [gatherProbe]
  | cons hd tl ih =>
    obtain ⟨tf, vf⟩ := hd
    intro rs h
    simp only [gatherInitial] at h
    cases hS : surrogateLoss fw rlGrad fastLr numSteps cur tf vf none none with
    | error e => rw [hS] at h; exact absurd h (by simp)
    | ok r₀ =>
      cases hG : gatherInitial fw rlGrad fastLr numSteps cur tl with
      | error e => rw [hS, hG] at h; exact absurd h (by simp)
      | ok rs₀ =>
        rw [hS, hG] at h
        injection h with h
        subst h
        obtain ⟨te, ve, rfl, rfl, rfl⟩ := surrogateLoss_none_none_ok hS
        simp only [gatherProbe]
        rw [surrogateLoss_some_some, ih rs₀ hG]
        simp [lossOf_self, klOf_self]

lemma lineSearchAux_reverts {n : ℕ} {E : Type} (lks : List (ℝ × ℝ))
    (numTasks oldLoss maxKl lsShrink : ℝ) (oldParams stepVec : Vec n)
    (h : ¬((lks.map Prod.fst).sum / numTasks - oldLoss < 0
      ∧ (lks.map Prod.snd).sum / numTasks < maxKl)) :
    ∀ (fuel : ℕ) (stepSize : ℝ) (acc : List (Vec n)) (done : ℕ),
      lineSearchAux (E := E) (Except.ok lks) numTasks oldLoss maxKl lsShrink
          oldParams stepVec fuel stepSize acc done
        = ⟨Except.ok (), oldParams,
            acc ++ (probeTents oldParams stepVec lsShrink fuel stepSize ++ [oldParams]),
            false, done + fuel⟩ := by
  intro fuel
  induction fuel with
  | zero =>
    intro s acc done
    simp [lineSearchAux, probeTents]
  | succ f ih =>
    intro s acc done
    rw [lineSearchAux, if_neg h,
      ih (s * lsShrink) (acc ++ [tentative oldParams stepVec s]) (done + 1)]
    simp only [StepOutcome.mk.injEq]
    refine ⟨trivial, trivial, ?_, trivial, ?_⟩
    · simp [probeTents, List.append_assoc]
    · omega

lemma probe_self_not_accept {n T B m : ℕ} (rs : List (SurrogateOut n T B m))
    (numTasks maxKl : ℝ) :
    ¬((((rs.map (fun r => (r.loss, (0 : ℝ)))).map Prod.fst).sum / numTasks
        - (rs.map SurrogateOut.loss).sum / numTasks < 0)
      ∧ ((rs.map (fun r => (r.loss, (0 : ℝ)))).map Prod.snd).sum / numTasks < maxKl) := by
  intro hc
  have hmap : ((rs.map (fun r => (r.loss, (0 : ℝ)))).map Prod.fst)
      = rs.map SurrogateOut.loss := by
    simp [List.map_map, Function.comp]
  have h1 := hc.1
  rw [hmap, sub_self] at h1
  exact lt_irrefl 0 h1

lemma stepModel_ok_eq {n T B m : ℕ} {Obs E : Type}
    {fw : Vec n → Obs → Cat m}
    {rlGrad : Vec n → Episodes T B m Obs → Vec n} {fastLr : ℝ} {numSteps : ℕ}
    (grads : Vec n) (H : Matrix (Fin n) (Fin n) ℝ)
    (cg : (Vec n → Vec n) → Vec n → ℕ → Vec n) (cfg : StepConfig)
    {θ : Vec n}
    {tasks : List (Except E (Episodes T B m Obs) × Except E (Episodes T B m Obs))}
    {rs : List (SurrogateOut n T B m)}
    (hG : gatherInitial fw rlGrad fastLr numSteps θ tasks = Except.ok rs) :
    stepModel fw rlGrad fastLr numSteps grads H cg cfg θ tasks
      = ⟨Except.ok (), θ,
          probeTents θ (stepVecOf grads H cg cfg) cfg.lsShrink cfg.lsMaxSteps 1 ++ [θ],
          false, cfg.lsMaxSteps⟩ := by
  unfold stepModel
  simp only [hG]
  rw [gatherProbe_of_initial fw rlGrad fastLr numSteps θ tasks rs hG,
    lineSearchAux_reverts _ _ _ _ _ _ _
      (probe_self_not_accept rs (tasks.length : ℝ) cfg.maxKl) cfg.lsMaxSteps 1 [] 0]
  simp

lemma stepModel_reverts {n T B m : ℕ} {Obs E : Type}
    (fw : Vec n → Obs → Cat m)
    (rlGrad : Vec n → Episodes T B m Obs → Vec n) (fastLr : ℝ) (numSteps : ℕ)
    (grads : Vec n) (H : Matrix (Fin n) (Fin n) ℝ)
    (cg : (Vec n → Vec n) → Vec n → ℕ → Vec n) (cfg : StepConfig)
    (θ : Vec n)
    (tasks : List (Except E (Episodes T B m Obs) × Except E (Episodes T B m Obs))) :
    (stepModel fw rlGrad fastLr numSteps grads H cg cfg θ tasks).accepted = false
    ∧ (stepModel fw rlGrad fastLr numSteps grads H cg cfg θ tasks).finalParams = θ := by
  cases hG : gatherInitial fw rlGrad fastLr numSteps θ tasks with
  | error e =>
    unfold stepModel
    rw [hG]
    exact ⟨rfl, rfl⟩
  | ok rs =>
    rw [stepModel_ok_eq grads H cg cfg hG]
    exact ⟨rfl, rfl⟩

lemma surrogateLoss_none_error {n T B m : ℕ} {Obs E : Type}
    (fw : Vec n → Obs → Cat m)
    (rlGrad : Vec n → Episodes T B m Obs → Vec n) (fastLr : ℝ) (numSteps : ℕ)
    (cur : Vec n) (tf vf : Except E (Episodes T B m Obs))
    (he : (∃ e, tf = Except.error e) ∨ (∃ e, vf = Except.error e)) :
    ∃ e, surrogateLoss fw rlGrad fastLr numSteps cur tf vf none none
      = Except.error e := by
  cases tf with
  | error e => exact ⟨e, rfl⟩
  | ok te =>
    rcases he with ⟨e, h⟩ | ⟨e, h⟩
    · exact absurd h (by simp)
    · subst h
      exact ⟨e, rfl⟩

lemma gatherInitial_error_of_mem {n T B m : ℕ} {Obs E : Type}
    (fw : Vec n → Obs → Cat m)
    (rlGrad : Vec n → Episodes T B m Obs → Vec n) (fastLr : ℝ) (numSteps : ℕ)
    (cur : Vec n)
    {tasks : List (Except E (Episodes T B m Obs) × Except E (Episodes T B m Obs))}
    {p : Except E (Episodes T B m Obs) × Except E (Episodes T B m Obs)}
    (hmem : p ∈ tasks)
    (he : (∃ e, p.1 = Except.error e) ∨ (∃ e, p.2 = Except.error e)) :
    ∃ e, gatherInitial fw rlGrad fastLr numSteps cur tasks = Except.error e := by
  induction tasks with
  | nil => cases hmem
  | cons hd tl ih =>
    rcases List.mem_cons.mp hmem with heq | hmem'
    · subst heq
      obtain ⟨tf, vf⟩ := p
      obtain ⟨e', hs⟩ := surrogateLoss_none_error fw rlGrad fastLr numSteps cur tf vf he
      exact ⟨e', by simp [gatherInitial, hs]⟩
    · obtain ⟨tf, vf⟩ := hd
      cases hs : surrogateLoss fw rlGrad fastLr numSteps cur tf vf none none with
      | error e => exact ⟨e, by simp [gatherInitial, hs]⟩
      | ok r =>
        obtain ⟨e, hg⟩ := ih hmem'
        exact ⟨e, by simp [gatherInitial, hs, hg]⟩

lemma probeTents_length {n : ℕ} (oldParams stepVec : Vec n) (lsShrink : ℝ) :
    ∀ (fuel : ℕ) (stepSize : ℝ),
      (probeTents oldParams stepVec lsShrink fuel stepSize).length = fuel := by
  intro fuel
  induction fuel with
  | zero => intro s; simp [probeTents]
  | succ f ih => intro s; simp [probeTents, ih]

lemma gatherInitial_tasksC :
    gatherInitial (E := Unit) fwC rlGC (1 / 2) 1 thC tasksC
      = Except.ok [⟨advLoss epC, 0, chosenParams rlGC (1 / 2) 1 thC epC none,
          some (piT fwC (chosenParams rlGC (1 / 2) 1 thC epC none) epC)⟩] := by
  simp [tasksC, gatherInitial, surrogateLoss_oldPi_none]

/-! ## Claims -/

/-- C1: refuted as stated; the code is the bug (spec §4.4 and §7a demand an
explicit guard).  `step()` computes `lagrange_multiplier = sqrt(shs / max_kl)`
and then divides by it with no guard whatsoever (metalearner.py lines
150-153).  At the concrete failing input `stepdir = 0` (which arises from a
zero aggregated gradient, e.g. identically zero advantages), `shs = 0`, the
multiplier is exactly `0`, and the unguarded division `stepdir / 0` produces
a non-finite IEEE value (`0/0` is NaN) that is silently propagated. -/
theorem C1_lagrange_division_unguarded :
    shsOf (1 : Matrix (Fin 1) (Fin 1) ℝ) (1 / 100) (fun _ => 0) = 0
    ∧ lagrangeOf (1 / 1000) (shsOf (1 : Matrix (Fin 1) (Fin 1) ℝ) (1 / 100) (fun _ => 0))
        = some 0
    ∧ trpoStepEntry (n := 1) (1 / 1000)
        (shsOf (1 : Matrix (Fin 1) (Fin 1) ℝ) (1 / 100) (fun _ => 0)) (fun _ => 0) 0
        = none := by
  have hshs : shsOf (1 : Matrix (Fin 1) (Fin 1) ℝ) (1 / 100) (fun _ => (0 : ℝ)) = 0 := by
    simp [shsOf, dotv]
  have hlag : lagrangeOf (1 / 1000)
      (shsOf (1 : Matrix (Fin 1) (Fin 1) ℝ) (1 / 100) (fun _ => 0)) = some 0 := by
    rw [hshs]
    norm_num [lagrangeOf, nfDiv, nfSqrt]
  refine ⟨hshs, hlag, ?_⟩
  rw [trpoStepEntry, hlag]
  norm_num [nfDiv]

/-- C2 counterexample: in a concrete successful `step()` run with
`ls_max_steps = 2`, the global parameter vector is written three times
(two tentative probe writes and the final revert), refuting the claim that
it is mutated exactly once per outer iteration and never written at any
other point. -/
theorem C2_cex_not_exactly_once :
    stepC.writes.length = 3 ∧ stepC.writes.length ≠ 1 := by
  have h : stepC.writes.length = 3 := by
    unfold stepC
    rw [stepModel_ok_eq gradsC HC cgC cfgC gatherInitial_tasksC]
    simp [probeTents_length, cfgC]
  exact ⟨h, by rw [h]; norm_num⟩

/-- C2 (amended): during one successful `step()` the global parameter
vector is written once per executed line-search probe (the tentative set
`old_params - step_size * step` before that probe's evaluation) plus
exactly once more by the final revert; the last write restores the saved
parameters, which are also the final value. -/
theorem C2_writes_per_probe {n T B m : ℕ} {Obs E : Type}
    (fw : Vec n → Obs → Cat m)
    (rlGrad : Vec n → Episodes T B m Obs → Vec n) (fastLr : ℝ) (numSteps : ℕ)
    (grads : Vec n) (H : Matrix (Fin n) (Fin n) ℝ)
    (cg : (Vec n → Vec n) → Vec n → ℕ → Vec n) (cfg : StepConfig)
    (θ : Vec n)
    (tasks : List (Except E (Episodes T B m Obs) × Except E (Episodes T B m Obs)))
    (h : (stepModel fw rlGrad fastLr numSteps grads H cg cfg θ tasks).result
      = Except.ok ()) :
    (stepModel fw rlGrad fastLr numSteps grads H cg cfg θ tasks).writes.length
      = (stepModel fw rlGrad fastLr numSteps grads H cg cfg θ tasks).probes + 1
    ∧ (stepModel fw rlGrad fastLr numSteps grads H cg cfg θ tasks).writes.getLast?
      = some θ
    ∧ (stepModel fw rlGrad fastLr numSteps grads H cg cfg θ tasks).finalParams = θ := by
  cases hG : gatherInitial fw rlGrad fastLr numSteps θ tasks with
  | error e => simp [stepModel, hG] at h
  | ok rs =>
    rw [stepModel_ok_eq grads H cg cfg hG]
    refine ⟨?_, ?_, rfl⟩
    · simp [probeTents_length]
    · simp

/-- C2 witness: the amended statement instantiated on the concrete
single-task run. -/
theorem C2_writes_per_probe_wit :
    stepC.result = Except.ok ()
    ∧ (stepC.writes.length = stepC.probes + 1
      ∧ stepC.writes.getLast? = some thC
      ∧ stepC.finalParams = thC) := by
  have hres : stepC.result = Except.ok () := by
    unfold stepC
    rw [stepModel_ok_eq gradsC HC cgC cfgC gatherInitial_tasksC]
  exact ⟨hres,
    C2_writes_per_probe fwC rlGC (1 / 2) 1 gradsC HC cgC cfgC thC tasksC hres⟩

/-- C3: if no line-search probe achieves both strictly negative mean
improvement and mean KL strictly below `max_kl` within `ls_max_steps`
probes, the global parameters after `step()` are exactly the parameters
saved before the line search began (exact revert to `old_params`). -/
theorem C3_exhausted_reverts {n T B m : ℕ} {Obs E : Type}
    (fw : Vec n → Obs → Cat m)
    (rlGrad : Vec n → Episodes T B m Obs → Vec n) (fastLr : ℝ) (numSteps : ℕ)
    (grads : Vec n) (H : Matrix (Fin n) (Fin n) ℝ)
    (cg : (Vec n → Vec n) → Vec n → ℕ → Vec n) (cfg : StepConfig)
    (θ : Vec n)
    (tasks : List (Except E (Episodes T B m Obs) × Except E (Episodes T B m Obs)))
    (h : noProbeAccepts fw rlGrad fastLr numSteps cfg θ tasks) :
    (stepModel fw rlGrad fastLr numSteps grads H cg cfg θ tasks).finalParams = θ := by
  cases hG : gatherInitial fw rlGrad fastLr numSteps θ tasks with
  | error e => simp [stepModel, hG]
  | ok rs =>
    have hprobe := gatherProbe_of_initial fw rlGrad fastLr numSteps θ tasks rs hG
    unfold stepModel
    simp only [hG]
    rw [hprobe,
      lineSearchAux_reverts _ _ _ _ _ _ _ (h rs _ hG hprobe) cfg.lsMaxSteps 1 [] 0]

/-- C3 witness: the revert statement instantiated on the concrete
single-task run, whose probes indeed never accept. -/
theorem C3_exhausted_reverts_wit :
    noProbeAccepts (E := Unit) fwC rlGC (1 / 2) 1 cfgC thC tasksC
    ∧ stepC.finalParams = thC := by
  have h : noProbeAccepts (E := Unit) fwC rlGC (1 / 2) 1 cfgC thC tasksC := by
    intro rs lks h1 h2
    rw [gatherProbe_of_initial _ _ _ _ _ _ rs h1] at h2
    injection h2 with h2
    subst h2
    exact probe_self_not_accept rs _ _
  exact ⟨h, C3_exhausted_reverts fwC rlGC (1 / 2) 1 gradsC HC cgC cfgC thC tasksC h⟩

/-- C4: code bug.  Every line-search probe calls `surrogate_loss` with the
initial pass's `params` and `old_pi` (metalearner.py lines 164-169), whose
values do not depend on the tentatively written global parameters, so the
probe's per-task loss equals the initial per-task loss exactly and the mean
improvement is exactly 0.  The strict accept test `improve < 0` therefore
never passes: the acceptance scenario of the claim (including the
`step_size = 1.0` no-backtracking case) is unreachable, and every `step()`
call leaves the global parameters equal to `old_params`. -/
theorem C4_line_search_never_accepts {n T B m : ℕ} {Obs E : Type}
    (fw : Vec n → Obs → Cat m)
    (rlGrad : Vec n → Episodes T B m Obs → Vec n) (fastLr : ℝ) (numSteps : ℕ)
    (grads : Vec n) (H : Matrix (Fin n) (Fin n) ℝ)
    (cg : (Vec n → Vec n) → Vec n → ℕ → Vec n) (cfg : StepConfig)
    (θ : Vec n)
    (tasks : List (Except E (Episodes T B m Obs) × Except E (Episodes T B m Obs))) :
    (stepModel fw rlGrad fastLr numSteps grads H cg cfg θ tasks).accepted = false
    ∧ (stepModel fw rlGrad fastLr numSteps grads H cg cfg θ tasks).finalParams = θ :=
  stepModel_reverts fw rlGrad fastLr numSteps grads H cg cfg θ tasks

/-- C5: with `old_pi` unset, `surrogate_loss` creates the reference
distribution as a detached copy of the current one, so at the same
parameter point the per-timestep importance ratio is exactly 1, the
per-task KL is exactly 0, and the loss is exactly the negated mask-weighted
mean of the advantages. -/
theorem C5_initial_pass_identities {n T B m : ℕ} {Obs E : Type}
    (fw : Vec n → Obs → Cat m)
    (rlGrad : Vec n → Episodes T B m Obs → Vec n) (fastLr : ℝ) (numSteps : ℕ)
    (cur : Vec n) (te ve : Episodes T B m Obs) (params : Option (Vec n)) :
    (∀ t b, ratioAt (piT fw (chosenParams rlGrad fastLr numSteps cur te params) ve)
        (detachDist (piT fw (chosenParams rlGrad fastLr numSteps cur te params) ve))
        ve t b = 1)
    ∧ surrogateLoss (E := E) fw rlGrad fastLr numSteps cur
        (Except.ok te) (Except.ok ve) params none
      = Except.ok ⟨advLoss ve, 0,
          chosenParams rlGrad fastLr numSteps cur te params,
          some (piT fw (chosenParams rlGrad fastLr numSteps cur te params) ve)⟩ :=
  ⟨fun t b => ratioAt_self _ ve t b,
   surrogateLoss_oldPi_none fw rlGrad fastLr numSteps cur te ve params⟩

/-- C6: the closure returned by `hessian_vector_product` computes
`H v + damping * v` for every vector `v` of the parameter dimensionality,
and is therefore linear: `hvp (a·v₁ + b·v₂) = a·hvp v₁ + b·hvp v₂`. -/
theorem C6_hvp_linear {n : ℕ} (H : Matrix (Fin n) (Fin n) ℝ) (damping : ℝ) :
    (∀ v : Vec n, hvpFun H damping v = fun i => H.mulVec v i + damping * v i)
    ∧ ∀ (a b : ℝ) (v₁ v₂ : Vec n),
        hvpFun H damping (a • v₁ + b • v₂)
          = a • hvpFun H damping v₁ + b • hvpFun H damping v₂ := by
  refine ⟨fun v => rfl, fun a b v₁ v₂ => ?_⟩
  funext i
  simp only [hvpFun, Matrix.mulVec_add, Matrix.mulVec_smul, Pi.add_apply,
    Pi.smul_apply, smul_eq_mul]
  ring

/-- C7: if any per-task episode future has failed, the initial concurrent
gather faults the whole `step()` call: it returns an error, performs no
parameter write, and leaves the global parameters unchanged — no partial
aggregate over the remaining tasks is used. -/
theorem C7_future_failure_faults_step {n T B m : ℕ} {Obs E : Type}
    (fw : Vec n → Obs → Cat m)
    (rlGrad : Vec n → Episodes T B m Obs → Vec n) (fastLr : ℝ) (numSteps : ℕ)
    (grads : Vec n) (H : Matrix (Fin n) (Fin n) ℝ)
    (cg : (Vec n → Vec n) → Vec n → ℕ → Vec n) (cfg : StepConfig)
    (θ : Vec n)
    (tasks : List (Except E (Episodes T B m Obs) × Except E (Episodes T B m Obs)))
    (h : someFutureFails tasks) :
    ∃ e, stepModel fw rlGrad fastLr numSteps grads H cg cfg θ tasks
      = ⟨Except.error e, θ, [], false, 0⟩ := by
  obtain ⟨p, hmem, he⟩ := h
  obtain ⟨e, hg⟩ :=
    gatherInitial_error_of_mem fw rlGrad fastLr numSteps θ hmem he
  exact ⟨e, by simp [stepModel, hg]⟩

/-- C7 witness: the orchestrator-barrier scenario of spec §8 with three
tasks, the second of which has a failed train future. -/
theorem C7_future_failure_faults_step_wit :
    someFutureFails tasksF
    ∧ stepModel fwC rlGC (1 / 2) 1 gradsC HC cgC cfgC thC tasksF
      = ⟨Except.error (), thC, [], false, 0⟩ := by
  have h : someFutureFails tasksF := by
    refine ⟨(Except.error (), Except.ok epC), ?_, Or.inl ⟨(), rfl⟩⟩
    simp [tasksF]
  obtain ⟨e, he⟩ :=
    C7_future_failure_faults_step fwC rlGC (1 / 2) 1 gradsC HC cgC cfgC thC tasksF h
  cases e
  exact ⟨h, he⟩

/-- C8: the Inner Adapter with `num_steps = 0` returns `None`, which under
the codebase's convention denotes the stored base parameters — the base
parameters unchanged. -/
theorem C8_adapt_zero_steps {n T B m : ℕ} {Obs : Type}
    (rlGrad : Vec n → Episodes T B m Obs → Vec n) (fastLr : ℝ) (cur : Vec n)
    (ep : Episodes T B m Obs) :
    adaptParams rlGrad fastLr cur ep 0 = none
    ∧ resolveParams cur (adaptParams rlGrad fastLr cur ep 0) = cur :=
  ⟨rfl, rfl⟩

/-- C9: `adapt(train_episodes)` performs exactly `num_steps` sequential
policy-gradient steps from the stored base parameters, each producing
`params - fast_lr * gradient(loss, params)`, and returns the result of the
final step. -/
theorem C9_adapt_iterates {n T B m : ℕ} {Obs : Type}
    (rlGrad : Vec n → Episodes T B m Obs → Vec n) (fastLr : ℝ) (cur : Vec n)
    (ep : Episodes T B m Obs) (k : ℕ) :
    resolveParams cur (adaptParams rlGrad fastLr cur ep k)
      = (innerUpdate rlGrad fastLr ep)^[k] cur := by
  induction k with
  | zero => rfl
  | succ k ih =>
    rw [Function.iterate_succ_apply', ← ih]
    rfl

/-- C10 counterexample: a `surrogate_loss` call with `params` provided but
`old_pi = None` returns a freshly created detached reference distribution,
not the `None` that was passed in — so the returned `old_pi` is not
"exactly the one passed in" for every call with non-None `params`. -/
theorem C10_cex_fresh_old_pi :
    surrogateLoss (E := Unit) fwC rlGC (1 / 2) 1 thC
        (Except.ok epC) (Except.ok epC) (some thC) none
      = Except.ok ⟨advLoss epC, 0, thC, some (piT fwC thC epC)⟩
    ∧ some (piT fwC thC epC) ≠ (none : Option (DistT 1 1 1)) := by
  constructor
  · have h := surrogateLoss_oldPi_none (E := Unit) fwC rlGC (1 / 2) 1 thC epC epC
      (some thC)
    simpa [chosenParams] using h
  · simp

/-- C10 (amended): for every `surrogate_loss` call with `params` provided,
the Inner Adapter is never invoked and the train future is never awaited
(the result is identical for arbitrary train futures and arbitrary inner
oracles/hyper-parameters, and only the validation episodes appear in it),
and the returned `params` is exactly the one passed in; when `old_pi` is
also provided it is returned unchanged, while with `old_pi` unset a fresh
detached copy of the current distribution is returned instead. -/
theorem C10_params_passthrough {n T B m : ℕ} {Obs E : Type}
    (fw : Vec n → Obs → Cat m)
    (rlGrad rlGrad' : Vec n → Episodes T B m Obs → Vec n)
    (fastLr fastLr' : ℝ) (numSteps numSteps' : ℕ) (cur cur' : Vec n)
    (tf tf' : Except E (Episodes T B m Obs)) (ve : Episodes T B m Obs)
    (p : Vec n) (d : DistT T B m) :
    surrogateLoss fw rlGrad fastLr numSteps cur tf (Except.ok ve) (some p) (some d)
      = Except.ok ⟨lossOf (piT fw p ve) d ve, klOf (piT fw p ve) d ve, p, some d⟩
    ∧ surrogateLoss fw rlGrad' fastLr' numSteps' cur' tf' (Except.ok ve)
        (some p) (some d)
      = surrogateLoss fw rlGrad fastLr numSteps cur tf (Except.ok ve) (some p) (some d)
    ∧ surrogateLoss fw rlGrad fastLr numSteps cur tf (Except.ok ve) (some p) none
      = Except.ok ⟨advLoss ve, 0, p, some (piT fw p ve)⟩ := by
  refine ⟨surrogateLoss_some_some fw rlGrad fastLr numSteps cur tf ve p d, rfl, ?_⟩
  simp only [surrogateLoss, surrogateCore, Option.getD_none, detachDist]
  rw [lossOf_self, klOf_self]

end MamlRl
